import Mathlib

/-!
Verification of the concurrent file replication engine of the `hatcher`
repository (package `internal/autocopy`), against its natural-language
specification.

The Go source is shallowly embedded:

* `ParallelCopier.discoverTasks` / `discoverItemTasks` / `discoverSinglePath`
  become pure functions over an abstract discovery filesystem `DiscFS`
  (`os.Stat`, `filepath.Walk`, `filepath.Glob` results supplied as fields).
* the worker pool becomes a fold over the global, linearised trace of task
  processings (`engineFold`); the RunState counter updates are atomic in the
  source (held under `pc.mutex`), so every concurrent schedule is some
  linearisation of them, and the trace processed by the pool is a
  sub-permutation of the discovered task list.
* the bounded `progress` / `errors` channels (both capacity 100) become lists
  with a capacity-guarded enqueue (`enqueue100`); the non-blocking
  `select ... default` sends of the source either enqueue or drop.  Alongside
  the channel contents we keep a ghost trace of every send *attempt*
  (`progAttempts` / `errAttempts`) so that theorems can distinguish
  "produced" from "enqueued".  The channel contents model the schedules in
  which the single consumer has not yet been scheduled when a send happens;
  the consumer drains each enqueued element exactly once after close.
* file copying (`ParallelCopier.copyFile`, `copyWithVerification`,
  `LegacyAutoCopier.copyFile`) becomes a state transformer over a small
  filesystem `FileSys` mapping paths to byte contents plus POSIX mode bits.
  The SHA-256 digest of the `crypto/sha256` library is an opaque function
  parameter `H`; the claims under verification compare digests, never
  preimages.  I/O outcomes of `processTask` are supplied by an oracle
  `io : CopyTask → Option String` (`none` = success, `some e` = the error).
* wall-clock data (timestamps, elapsed time, ETA) and float percentages are
  outside the embedding and are dropped from the mirrored structures; no
  claim under consideration mentions them.

Sizes are modelled as `Nat` (file sizes reported by `os.FileInfo.Size` are
non-negative).  Error values are their `fmt.Errorf` message strings.
-/

namespace Autocopy

open List

/-- Mirrors Go `ProgressType` (`start`, `progress`, `complete`, `error`). -/
inductive ProgressType where
  | start
  | progress
  | complete
  | error
deriving DecidableEq, Repr

/-- Mirrors Go `ProgressUpdate` (wall-clock and float fields dropped, see
module comment). -/
structure ProgressUpdate where
  type : ProgressType
  message : String
  current : Nat
  total : Nat
  bytesCopied : Nat
  totalBytes : Nat
deriving DecidableEq, Repr

/-- Mirrors Go `CopyError` (the `Timestamp` wall-clock field is dropped). -/
structure CopyError where
  sourcePath : String
  destPath : String
  error : String
deriving DecidableEq, Repr

/-- Mirrors Go `CopyTask`. -/
structure CopyTask where
  sourcePath : String
  destPath : String
  isDir : Bool
  size : Nat
deriving DecidableEq, Repr

/-- Mirrors Go `ParallelCopyOptions` (the two callback fields are dropped;
send attempts are recorded in the ghost traces instead). -/
structure ParallelCopyOptions where
  maxWorkers : Nat
  bufferSize : Nat
  showProgress : Bool
  verifyIntegrity : Bool
  checksumType : String
  continueOnError : Bool
deriving DecidableEq, Repr

/-- Mirrors Go `AutoCopyItem` (the `Exclude`/`Include` fields are unused by
the parallel engine and dropped).  `directory = none` mirrors the nil
pointer `Directory *bool`. -/
structure AutoCopyItem where
  path : String
  directory : Option Bool
  recursive : Bool
  rootOnly : Bool
  autoDetect : Bool
  useGlob : Bool
deriving DecidableEq, Repr

/-- Result of `os.Stat`: found (with kind and size), `IsNotExist`, or any
other stat error. -/
inductive StatResult where
  | found (isDir : Bool) (size : Nat)
  | notExist
  | statError
deriving DecidableEq, Repr

/-- One entry visited by `filepath.Walk` (absolute path plus `os.FileInfo`
kind and size). -/
structure WalkEntry where
  path : String
  isDir : Bool
  size : Nat
deriving DecidableEq, Repr

/-- The discovery-time filesystem: results of `os.Stat`, `filepath.Walk`
(`none` = walk error; the root directory itself is included in the listing,
as `filepath.Walk` visits it first) and `filepath.Glob` (`none` = bad
pattern). -/
structure DiscFS where
  stat : String → StatResult
  walk : String → Option (List WalkEntry)
  glob : String → Option (List String)

/-- `filepath.Join` for the simple two-segment case used by the engine. -/
def joinPath (a b : String) : String := a ++ "/" ++ b

/-- `filepath.Rel base p` for the walk entries, which are always strict
descendants of `base` (expressed on the character lists so that it
evaluates on concrete inputs). -/
def relPath (base p : String) : String :=
  if (base ++ "/").data.isPrefixOf p.data then
    String.mk (p.data.drop ((base ++ "/").data.length))
  else p

/-- Embeds `ParallelCopier.discoverSinglePath` (part_006 lines 261-346):
stat the source; a missing source is skipped only when `item.AutoDetect`
holds, otherwise the stat error is returned; a directory conflicts with an
explicit `Directory=false` declaration (and a file with `Directory=true`);
a recursive directory item additionally walks the tree, skipping the root
entry itself. -/
def discoverSinglePath (fs : DiscFS) (sourceDir destDir relativePath : String)
    (item : AutoCopyItem) : Except String (List CopyTask) :=
  let sourcePath := joinPath sourceDir relativePath
  let destPath := joinPath destDir relativePath
  match fs.stat sourcePath with
  | .notExist =>
      if item.autoDetect then
        .ok []
      else
        .error ("failed to stat " ++ sourcePath)
  | .statError => .error ("failed to stat " ++ sourcePath)
  | .found isDir size =>
      if isDir then
        if item.directory = some false then
          .error ("expected file but found directory: " ++ sourcePath)
        else
          let dirTask : CopyTask := ⟨sourcePath, destPath, true, 0⟩
          if item.recursive then
            match fs.walk sourcePath with
            | none => .error ("failed to walk directory " ++ sourcePath)
            | some entries =>
                .ok (dirTask :: entries.filterMap (fun e =>
                  if e.path = sourcePath then
                    none
                  else
                    let destWalkPath := joinPath destPath (relPath sourcePath e.path)
                    if e.isDir then
                      some ⟨e.path, destWalkPath, true, 0⟩
                    else
                      some ⟨e.path, destWalkPath, false, e.size⟩))
          else
            .ok [dirTask]
      else
        if item.directory = some true then
          .error ("expected directory but found file: " ++ sourcePath)
        else
          .ok [⟨sourcePath, destPath, false, size⟩]

/-- The glob-match loop inside `discoverItemTasks`: per match, resolve the
path relative to the source root and discover it; a per-match error is
skipped when `continueOnError` holds, otherwise it aborts the item. -/
def discoverGlobMatches (fs : DiscFS) (co : Bool) (sourceDir destDir : String)
    (item : AutoCopyItem) : List String → Except String (List CopyTask)
  | [] => .ok []
  | m :: rest =>
      match discoverSinglePath fs sourceDir destDir (relPath sourceDir m) item with
      | .error e =>
          if co then discoverGlobMatches fs co sourceDir destDir item rest
          else .error e
      | .ok ts =>
          match discoverGlobMatches fs co sourceDir destDir item rest with
          | .error e => .error e
          | .ok ts2 => .ok (ts ++ ts2)

/-- Embeds `ParallelCopier.discoverItemTasks` (part_006 lines 222-258). -/
def discoverItemTasks (fs : DiscFS) (co : Bool) (sourceDir destDir : String)
    (item : AutoCopyItem) : Except String (List CopyTask) :=
  if item.useGlob then
    match fs.glob (joinPath sourceDir item.path) with
    | none => .error ("glob pattern failed for " ++ item.path)
    | some ms => discoverGlobMatches fs co sourceDir destDir item ms
  else
    discoverSinglePath fs sourceDir destDir item.path item

/-- Embeds `ParallelCopier.discoverTasks` (part_006 lines 199-219).  The
second component is the list of `CopyError`s passed to `pc.sendError` for
items that failed while `continueOnError` was set (the Go error carries the
item path as source, an empty destination, and the cause). -/
def discoverTasks (fs : DiscFS) (co : Bool) (sourceDir destDir : String) :
    List AutoCopyItem → Except String (List CopyTask) × List CopyError
  | [] => (.ok [], [])
  | item :: rest =>
      match discoverItemTasks fs co sourceDir destDir item with
      | .error e =>
          if co then
            let r := discoverTasks fs co sourceDir destDir rest
            (r.1, ⟨item.path, "", e⟩ :: r.2)
          else
            (.error e, [])
      | .ok ts =>
          let r := discoverTasks fs co sourceDir destDir rest
          match r.1 with
          | .error e => (.error e, r.2)
          | .ok ts2 => (.ok (ts ++ ts2), r.2)

/-! ## File copy model -/

/-- A regular file: byte contents plus POSIX permission bits. -/
structure FileData where
  contents : List Nat
  mode : Nat
deriving DecidableEq, Repr

/-- The copy-time filesystem: an association list from path to file, most
recent write first. -/
def FileSys := List (String × FileData)

/-- Look a file up (`os.Stat` / `os.Open` on the copy-time filesystem). -/
def statF : FileSys → String → Option FileData
  | [], _ => none
  | (q, f) :: rest, p => if q = p then some f else statF rest p

/-- Write a file (`os.Create` plus the byte stream written to it). -/
def writeF (fs : FileSys) (p : String) (f : FileData) : FileSys := (p, f) :: fs

/-- The mode with which `os.Create` makes a fresh destination file
(0666 = 438; an already existing destination is truncated and keeps its
mode). -/
def createMode : Nat := 438

/-- The destination file as `os.Create` leaves it before any bytes are
written: truncated if it existed, else fresh with `createMode`. -/
def createdDest (fs : FileSys) (destPath : String) : FileData :=
  match statF fs destPath with
  | some f => { f with contents := [] }
  | none => { contents := [], mode := createMode }

/-- Embeds `equalBytes` (part_006 lines 525-536).  The source's length
guard followed by an index loop is expressed as simultaneous structural
recursion. -/
def equalBytes : List Nat → List Nat → Bool
  | [], [] => true
  | a :: as, b :: bs => if a ≠ b then false else equalBytes as bs
  | _, _ => false

/-- Embeds `ParallelCopier.copyWithVerification` (part_006 lines 451-481).
`H` is the digest function selected by the checksum switch (`sha256.New`
for `"sha256"`; any other type errors out before copying).  `srcBytes` are
the bytes the `TeeReader` read from the source (fed to `sourceHash`),
`dstBytes` the bytes the `MultiWriter` wrote to the destination file (fed
to `destHash`); the digests are compared with `equalBytes` after the single
streaming pass, and the destination is written in every case — a mismatch
does not remove or roll it back. -/
def copyWithVerification (H : List Nat → List Nat) (checksumType : String)
    (fs : FileSys) (destPath : String) (destFile : FileData)
    (srcBytes dstBytes : List Nat) : FileSys × Option String :=
  if checksumType = "sha256" then
    let fs1 := writeF fs destPath { destFile with contents := dstBytes }
    if equalBytes (H srcBytes) (H dstBytes) then
      (fs1, none)
    else
      (fs1, some "integrity verification failed: checksums don\x27t match")
  else
    (fs, some ("unsupported checksum type: " ++ checksumType))

/-- Embeds `ParallelCopier.copyFile` (part_006 lines 415-448): ensure the
destination directory (modelled as always succeeding), open the source,
create the destination, then either verify-copy or plain-copy.  In the
source the bytes written are exactly the bytes read (`io.CopyBuffer`
forwards the same buffer), so both digest inputs are the source
contents. -/
def parallelCopyFile (H : List Nat → List Nat) (opts : ParallelCopyOptions)
    (fs : FileSys) (sourcePath destPath : String) : FileSys × Option String :=
  match statF fs sourcePath with
  | none => (fs, some "failed to open source file")
  | some src =>
      let destFile := createdDest fs destPath
      let fs1 := writeF fs destPath destFile
      if opts.verifyIntegrity then
        copyWithVerification H opts.checksumType fs1 destPath destFile
          src.contents src.contents
      else
        (writeF fs1 destPath { destFile with contents := src.contents }, none)

/-- Embeds `LegacyAutoCopier.copyFile` (part_010 lines 327-361): plain copy
followed by a best-effort `os.Chmod(destPath, sourceInfo.Mode())` whose
error is discarded; `chmodOk` says whether that chmod call succeeded. -/
def legacyCopyFile (chmodOk : Bool) (fs : FileSys) (sourcePath destPath : String) :
    FileSys × Option String :=
  match statF fs sourcePath with
  | none => (fs, some "failed to open source file")
  | some src =>
      let destFile := createdDest fs destPath
      let fs1 := writeF fs destPath { destFile with contents := src.contents }
      if chmodOk then
        (writeF fs1 destPath { contents := src.contents, mode := src.mode }, none)
      else
        (fs1, none)

/-! ## Engine state and run coordinator -/

/-- The shared state of one engine invocation: the RunState counters
(guarded by `pc.mutex` in the source, hence updated atomically), the two
bounded output channels with their ghost send-attempt traces, and the
`pc.results` channel a non-continuing worker signals on. -/
structure EngineState where
  completedTasks : Nat
  copiedBytes : Nat
  totalTasks : Nat
  totalBytes : Nat
  progAttempts : List ProgressUpdate
  progQueue : List ProgressUpdate
  errAttempts : List CopyError
  errQueue : List CopyError
  resultsQueue : List String
deriving DecidableEq, Repr

/-- Non-blocking send on a channel of capacity 100 (`select ... default`):
enqueue when there is room, silently drop otherwise. -/
def enqueue100 {α : Type} (q : List α) (u : α) : List α :=
  if q.length < 100 then q ++ [u] else q

/-- Embeds `ParallelCopier.sendProgressUpdate` (part_006 lines 484-492):
guarded by `ShowProgress`, then a non-blocking send.  The attempt is also
recorded on the ghost trace. -/
def sendProgressUpdate (opts : ParallelCopyOptions) (s : EngineState)
    (u : ProgressUpdate) : EngineState :=
  if opts.showProgress then
    { s with progAttempts := s.progAttempts ++ [u],
             progQueue := enqueue100 s.progQueue u }
  else s

/-- Embeds `ParallelCopier.sendError` (part_006 lines 494-501): an
unconditional non-blocking send, recorded on the ghost trace. -/
def sendError (s : EngineState) (e : CopyError) : EngineState :=
  { s with errAttempts := s.errAttempts ++ [e],
           errQueue := enqueue100 s.errQueue e }

/-- The `CopyError` a worker builds for a failed task (part_006 lines
355-360). -/
def mkTaskError (t : CopyTask) (e : String) : CopyError :=
  ⟨t.sourcePath, t.destPath, e⟩

/-- The intermediate progress sample a worker builds (part_006 lines
388-398), from the counter values it read under the lock. -/
def progressSample (s : EngineState) : ProgressUpdate :=
  { type := .progress,
    message := "Copied " ++ toString s.completedTasks ++ "/" ++
      toString s.totalTasks ++ " files",
    current := s.completedTasks, total := s.totalTasks,
    bytesCopied := s.copiedBytes, totalBytes := s.totalBytes }

/-- The tail of the worker loop body (part_006 lines 368-399): under the
lock, increment `completedTasks` and add the task's declared size to
`copiedBytes`; then, when progress is shown and the just-read counter is a
multiple of 10, send a progress sample. -/
def recordCompletion (opts : ParallelCopyOptions) (s : EngineState)
    (t : CopyTask) : EngineState :=
  let s1 := { s with completedTasks := s.completedTasks + 1,
                     copiedBytes := s.copiedBytes + t.size }
  if opts.showProgress && s1.completedTasks % 10 == 0 then
    sendProgressUpdate opts s1 (progressSample s1)
  else s1

/-- One iteration of `ParallelCopier.worker` (part_006 lines 349-401) on
task `t`, with the outcome of `processTask` supplied by the oracle `io`.
On failure the worker sends a `CopyError`; if `continueOnError` is unset it
then pushes the error onto `pc.results` and stops (returns `true`) without
touching the counters; otherwise — and always on success — it records the
completion. -/
def workerStep (opts : ParallelCopyOptions) (io : CopyTask → Option String)
    (s : EngineState) (t : CopyTask) : EngineState × Bool :=
  match io t with
  | some e =>
      let s1 := sendError s (mkTaskError t e)
      if !opts.continueOnError then
        ({ s1 with resultsQueue := s1.resultsQueue ++ [e] }, true)
      else
        (recordCompletion opts s1 t, false)
  | none => (recordCompletion opts s t, false)

/-- The linearised effect of the whole worker pool on the shared state: the
lock-protected updates of all workers form a global sequence `procs` of
task processings, and each processing acts as one `workerStep`.  Whether a
failing worker stops is reflected in which tasks occur in `procs`; the
theorems constrain `procs` to a sub-permutation of the discovered list. -/
def engineFold (opts : ParallelCopyOptions) (io : CopyTask → Option String) :
    EngineState → List CopyTask → EngineState
  | s, [] => s
  | s, t :: rest => engineFold opts io (workerStep opts io s t).1 rest

/-- The state right after discovery inside `Run` (part_006 lines 111-144):
counters zeroed, totals fixed from the discovered tasks, errors already
sent during discovery enqueued on the fresh error channel. -/
def initState (discErrs : List CopyError) (tasks : List CopyTask) : EngineState :=
  { completedTasks := 0, copiedBytes := 0,
    totalTasks := tasks.length,
    totalBytes := (tasks.map (fun t => t.size)).sum,
    progAttempts := [], progQueue := [],
    errAttempts := discErrs,
    errQueue := discErrs.foldl enqueue100 [],
    resultsQueue := [] }

/-- The `start` update `Run` sends before launching workers (part_006 lines
148-154): only `Type`, `Message` and `Total` are set. -/
def startUpdate (total : Nat) : ProgressUpdate :=
  { type := .start,
    message := "Starting parallel copy of " ++ toString total ++ " items",
    current := 0, total := total, bytesCopied := 0, totalBytes := 0 }

/-- The `complete` update `Run` sends after `wg.Wait()` (part_006 lines
173-185). -/
def completeUpdate (s : EngineState) : ProgressUpdate :=
  { type := .complete, message := "Copy operation completed",
    current := s.completedTasks, total := s.totalTasks,
    bytesCopied := s.copiedBytes, totalBytes := s.totalBytes }

/-- The body of `Run` after a successful, non-empty discovery (part_006
lines 147-195): send `start`, let the workers process the global trace
`procs`, wait for them (`wg.Wait`), send `complete`. -/
def runBody (opts : ParallelCopyOptions) (io : CopyTask → Option String)
    (discErrs : List CopyError) (tasks procs : List CopyTask) : EngineState :=
  let s1 := if opts.showProgress then
      sendProgressUpdate opts (initState discErrs tasks) (startUpdate tasks.length)
    else initState discErrs tasks
  let s2 := engineFold opts io s1 procs
  if opts.showProgress then sendProgressUpdate opts s2 (completeUpdate s2) else s2

/-- Embeds `ParallelCopier.Run` (part_006 lines 108-196).  Returns the
error `Run` returns (`none` = nil) and the final shared state.  A discovery
failure short-circuits; zero discovered tasks return nil at once, before
any progress update; otherwise `Run` runs `runBody`.  Note that `Run`
itself never reads `pc.results`, and its return value after a successful
discovery is always nil. -/
def runEngine (opts : ParallelCopyOptions) (fs : DiscFS)
    (sourceDir destDir : String) (items : List AutoCopyItem)
    (io : CopyTask → Option String) (procs : List CopyTask) :
    Option String × EngineState :=
  match discoverTasks fs opts.continueOnError sourceDir destDir items with
  | (.error e, discErrs) =>
      (some ("failed to discover copy tasks: " ++ e), initState discErrs [])
  | (.ok tasks, discErrs) =>
      if tasks.length = 0 then
        (none, initState discErrs tasks)
      else
        (none, runBody opts io discErrs tasks procs)

/-! ## Concrete instances used by counterexamples and witnesses -/

/-- The mismatch message `discoverSinglePath` produces when the declared
kind `b` conflicts with the filesystem entry. -/
def mismatchMsg (b : Bool) (sourcePath : String) : String :=
  if b then "expected directory but found file: " ++ sourcePath
  else "expected file but found directory: " ++ sourcePath

/-- A discovery filesystem on which every path is missing. -/
def emptyDiscFS : DiscFS := ⟨fun _ => .notExist, fun _ => none, fun _ => none⟩

/-- A discovery filesystem holding a single 3-byte file at `s/x`. -/
def fileAtSXFS : DiscFS :=
  ⟨fun p => if p = "s/x" then .found false 3 else .notExist,
   fun _ => none, fun _ => none⟩

/-- A discovery filesystem holding a single directory at `s/x`. -/
def dirAtSXFS : DiscFS :=
  ⟨fun p => if p = "s/x" then .found true 0 else .notExist,
   fun _ => none, fun _ => none⟩

/-- A plain item (no flags set) for path `x`. -/
def itemPlainX : AutoCopyItem := ⟨"x", none, false, false, false, false⟩

/-- An auto-detect item for path `x`. -/
def itemAutoX : AutoCopyItem := ⟨"x", none, false, false, true, false⟩

/-- A non-glob item declaring `x` to be a file (`Directory = &false`). -/
def itemFileX : AutoCopyItem := ⟨"x", some false, false, false, false, false⟩

/-- Options with progress and verification off, continue-on-error on
(the policy the higher-level caller uses), default pool and buffer. -/
def plainOpts : ParallelCopyOptions := ⟨4, 65536, false, false, "sha256", true⟩

/-- Like `plainOpts` but with `ContinueOnError = false`. -/
def optsNoCont : ParallelCopyOptions := ⟨4, 65536, false, false, "sha256", false⟩

/-- Like `plainOpts` but with progress reporting on. -/
def optsShow : ParallelCopyOptions := ⟨4, 65536, true, false, "sha256", true⟩

/-- A copy-time filesystem holding one source file `a` with mode
0755 (= 493). -/
def srcOnlyFS : FileSys := [("a", ⟨[1, 2], 493⟩)]

/-- The file-copy task discovery produces for `itemPlainX` on
`fileAtSXFS`. -/
def taskSX : CopyTask := ⟨"s/x", "d/x", false, 3⟩

/-- An I/O oracle on which every task fails. -/
def ioBoom : CopyTask → Option String := fun _ => some "copy failed"

/-- An I/O oracle on which every task succeeds. -/
def ioOk : CopyTask → Option String := fun _ => none

/-- 101 distinct zero-byte file tasks. -/
def manyTasks : List CopyTask :=
  (List.range 101).map (fun i => ⟨toString i, toString i, false, 0⟩)

/-- 12 distinct zero-byte file tasks. -/
def twelveTasks : List CopyTask :=
  (List.range 12).map (fun i => ⟨toString i, toString i, false, 0⟩)

/-- Two small file tasks with sizes 2 and 3. -/
def tasksTwo : List CopyTask := [⟨"a", "b", false, 2⟩, ⟨"c", "d", false, 3⟩]

/-- A glob item declaring `x` to be a file (`Directory = &false`,
`UseGlob = true`). -/
def itemGlobFileX : AutoCopyItem := ⟨"x", some false, false, false, false, true⟩

/-- Like `dirAtSXFS` (a directory at `s/x`) but with a glob oracle on which
the pattern `s/x` expands to the single match `s/x`. -/
def globDirFS : DiscFS :=
  ⟨fun p => if p = "s/x" then .found true 0 else .notExist,
   fun _ => none,
   fun p => if p = "s/x" then some ["s/x"] else none⟩


/-! ## Basic lemmas -/

theorem equalBytes_iff (a b : List Nat) : equalBytes a b = true ↔ a = b := by
  induction a generalizing b with
  | nil => cases b <;> simp [equalBytes]
  | cons x xs ih =>
      cases b with
      | nil => simp [equalBytes]
      | cons y ys =>
          by_cases hxy : x = y
          · subst hxy
            simp [equalBytes, ih]
          · simp [equalBytes, hxy]

theorem statF_writeF_self (fs : FileSys) (p : String) (f : FileData) :
    statF (writeF fs p f) p = some f := by
  simp [statF, writeF]

/-! ## Claim C2 — missing-source tolerance -/

/-- Claim C2, counterexample: for an item whose `autoDetect` flag is not
set, a missing source is *not* skipped silently — `discoverSinglePath`
returns the stat error, refuting "zero tasks and no error, regardless of
the item's flags". -/
theorem missing_source_without_autodetect_is_error :
    discoverSinglePath emptyDiscFS "s" "d" "x" itemPlainX =
      .error "failed to stat s/x" := by
  rfl

/-- Claim C2 (amended): for every configuration item whose resolved source
path does not exist at discovery time, discovery produces zero tasks and no
error exactly when the item's `autoDetect` flag is set; when `autoDetect`
is not set, discovery fails for that item with the stat error. -/
theorem missing_source_skip_requires_autodetect (fs : DiscFS)
    (sourceDir destDir rel : String) (item : AutoCopyItem)
    (h : fs.stat (joinPath sourceDir rel) = .notExist) :
    discoverSinglePath fs sourceDir destDir rel item =
      (if item.autoDetect then .ok [] else
        .error ("failed to stat " ++ joinPath sourceDir rel)) := by
  simp only [discoverSinglePath, h]

/-- Witness for `missing_source_skip_requires_autodetect` at a concrete
missing path, with `autoDetect` set. -/
theorem missing_source_skip_requires_autodetect_witness :
    discoverSinglePath emptyDiscFS "s" "d" "x" itemAutoX = .ok [] := by
  have h := missing_source_skip_requires_autodetect emptyDiscFS "s" "d" "x"
    itemAutoX rfl
  simpa using h

/-! ## Claim C4 — integrity verification -/

/-- Claim C4: with verification enabled (checksum type `"sha256"`), the
copy fails with the integrity (checksum-mismatch) error exactly when the
digest of the bytes read from the source differs from the digest of the
bytes written to the destination, both computed during the single streaming
pass; and in every case — mismatch included — the destination file is left
in place holding the written bytes, not removed or rolled back. -/
theorem integrity_error_iff_digest_mismatch (H : List Nat → List Nat)
    (fs : FileSys) (destPath : String) (destFile : FileData)
    (srcBytes dstBytes : List Nat) :
    ((copyWithVerification H "sha256" fs destPath destFile srcBytes dstBytes).2 =
        some "integrity verification failed: checksums don\x27t match" ↔
      H srcBytes ≠ H dstBytes) ∧
    statF (copyWithVerification H "sha256" fs destPath destFile srcBytes dstBytes).1
        destPath = some { destFile with contents := dstBytes } := by
  unfold copyWithVerification
  rw [if_pos rfl]
  cases hb : equalBytes (H srcBytes) (H dstBytes) with
  | true =>
      have heq : H srcBytes = H dstBytes := (equalBytes_iff _ _).mp hb
      simp [heq, statF_writeF_self]
  | false =>
      have hne : H srcBytes ≠ H dstBytes := by
        intro hc
        rw [(equalBytes_iff _ _).mpr hc] at hb
        exact Bool.true_eq_false.mp hb
      simp [hne, statF_writeF_self]

/-! ## Claim C6 — declared-kind mismatch -/

/-- Claim C6, counterexample: a glob item declaring `x` a file whose
single match `s/x` is a directory has a declared-kind conflict, yet with
continue-on-error enabled discovery skips the match with a bare `continue`
and records nothing on the error stream — refuting "the error is recorded
on the error stream" for the glob items the claim's "every item"
covers. -/
theorem glob_mismatch_skipped_without_recording :
    discoverSinglePath globDirFS "s" "d" "x" itemGlobFileX =
      .error "expected file but found directory: s/x" ∧
    discoverTasks globDirFS true "s" "d" [itemGlobFileX] = (.ok [], []) := by
  exact ⟨rfl, rfl⟩

/-- Claim C6 (amended): for every non-glob item whose explicit
`isDirectory` value conflicts with the actual filesystem entry type and
whose `autoDetect` flag is not set, `discoverSinglePath` fails with the
error describing the mismatch; with continue-on-error disabled the whole
discovery fails with that error, while with continue-on-error enabled the
item is skipped, the error is recorded on the error stream, and discovery
of the remaining items continues.  For a glob item whose match conflicts
the same way, discovery still fails with the mismatch error when
continue-on-error is disabled, but with continue-on-error enabled the
match is skipped silently: the item contributes nothing and no error is
recorded. -/
theorem type_mismatch_fails_or_skips (fs : DiscFS)
    (sourceDir destDir : String) (item itemG : AutoCopyItem)
    (rest : List AutoCopyItem) (b bG d dG : Bool) (sz szG : Nat) (m : String)
    (hglob : item.useGlob = false) (_hauto : item.autoDetect = false)
    (hdecl : item.directory = some b)
    (hstat : fs.stat (joinPath sourceDir item.path) = .found d sz)
    (hconf : d = !b)
    (hglobG : itemG.useGlob = true) (_hautoG : itemG.autoDetect = false)
    (hdeclG : itemG.directory = some bG)
    (hglobfs : fs.glob (joinPath sourceDir itemG.path) = some [m])
    (hrel : relPath sourceDir m = itemG.path)
    (hstatG : fs.stat (joinPath sourceDir itemG.path) = .found dG szG)
    (hconfG : dG = !bG) :
    discoverSinglePath fs sourceDir destDir item.path item =
      .error (mismatchMsg b (joinPath sourceDir item.path)) ∧
    discoverTasks fs false sourceDir destDir (item :: rest) =
      (.error (mismatchMsg b (joinPath sourceDir item.path)), []) ∧
    discoverTasks fs true sourceDir destDir (item :: rest) =
      ((discoverTasks fs true sourceDir destDir rest).1,
        ⟨item.path, "", mismatchMsg b (joinPath sourceDir item.path)⟩ ::
          (discoverTasks fs true sourceDir destDir rest).2) ∧
    discoverTasks fs false sourceDir destDir (itemG :: rest) =
      (.error (mismatchMsg bG (joinPath sourceDir itemG.path)), []) ∧
    discoverTasks fs true sourceDir destDir (itemG :: rest) =
      discoverTasks fs true sourceDir destDir rest := by
  have hsingle : discoverSinglePath fs sourceDir destDir item.path item =
      .error (mismatchMsg b (joinPath sourceDir item.path)) := by
    subst hconf
    cases b with
    | true => simp [discoverSinglePath, hstat, hdecl, mismatchMsg]
    | false => simp [discoverSinglePath, hstat, hdecl, mismatchMsg]
  have hsingleG : discoverSinglePath fs sourceDir destDir itemG.path itemG =
      .error (mismatchMsg bG (joinPath sourceDir itemG.path)) := by
    subst hconfG
    cases bG with
    | true => simp [discoverSinglePath, hstatG, hdeclG, mismatchMsg]
    | false => simp [discoverSinglePath, hstatG, hdeclG, mismatchMsg]
  have hitemG : ∀ co : Bool, discoverItemTasks fs co sourceDir destDir itemG =
      (if co then .ok [] else
        .error (mismatchMsg bG (joinPath sourceDir itemG.path))) := by
    intro co
    simp only [discoverItemTasks, hglobG, if_pos, hglobfs]
    simp only [discoverGlobMatches, hrel, hsingleG]
  refine ⟨hsingle, ?_, ?_, ?_, ?_⟩
  · simp [discoverTasks, discoverItemTasks, hglob, hsingle]
  · simp [discoverTasks, discoverItemTasks, hglob, hsingle]
  · simp [discoverTasks, hitemG false]
  · simp only [discoverTasks, hitemG true, if_pos]
    cases hr : (discoverTasks fs true sourceDir destDir rest).1 with
    | error e =>
        show (Except.error e, (discoverTasks fs true sourceDir destDir rest).2) =
          discoverTasks fs true sourceDir destDir rest
        rw [← hr]
    | ok ts2 =>
        show (Except.ok ([] ++ ts2), (discoverTasks fs true sourceDir destDir rest).2) =
          discoverTasks fs true sourceDir destDir rest
        rw [List.nil_append, ← hr]

/-- Witness for `type_mismatch_fails_or_skips`: `x` is declared a file,
`s/x` is a directory; the non-glob item records the error under
continue-on-error while the glob item is a silent no-op. -/
theorem type_mismatch_fails_or_skips_witness :
    discoverSinglePath globDirFS "s" "d" "x" itemFileX =
      .error "expected file but found directory: s/x" ∧
    discoverTasks globDirFS true "s" "d" [itemFileX] =
      (.ok [], [⟨"x", "", "expected file but found directory: s/x"⟩]) ∧
    discoverTasks globDirFS true "s" "d" [itemGlobFileX] =
      discoverTasks globDirFS true "s" "d" [] := by
  have h := type_mismatch_fails_or_skips globDirFS "s" "d" itemFileX
    itemGlobFileX [] false false true true 0 0 "s/x"
    rfl rfl rfl rfl rfl rfl rfl rfl rfl (by decide) rfl rfl
  exact ⟨h.1, h.2.2.1, h.2.2.2.2⟩

/-! ## Claim C7 — permission bits -/

/-- Claim C7, counterexample: the parallel worker's `copyFile` performs no
chmod at all — copying mode-0755 source `a` to fresh destination `b` leaves
`b` with the default create mode 0666 (= 438), not the source's bits. -/
theorem parallel_worker_does_not_copy_mode :
    statF (parallelCopyFile (fun l => l) plainOpts srcOnlyFS "a" "b").1 "b" =
      some ⟨[1, 2], 438⟩ ∧ (438 : Nat) ≠ 493 := by
  exact ⟨rfl, by decide⟩

/-- Claim C7 (amended): the parallel engine's worker does not copy mode
bits — after any `parallelCopyFile` the destination keeps its pre-existing
mode, or the default create mode if newly created, independently of the
source's mode.  The legacy sequential copier is the one that copies mode
bits best-effort: when its chmod succeeds the destination carries the
source's mode bits, and a chmod failure does not make the copy fail. -/
theorem mode_bits_best_effort_legacy_only (H : List Nat → List Nat)
    (opts : ParallelCopyOptions) (fs : FileSys) (sourcePath destPath : String)
    (src : FileData) (h : statF fs sourcePath = some src) :
    (statF (parallelCopyFile H opts fs sourcePath destPath).1 destPath).map
        (fun f => f.mode) = some (createdDest fs destPath).mode ∧
    (legacyCopyFile true fs sourcePath destPath).2 = none ∧
    statF (legacyCopyFile true fs sourcePath destPath).1 destPath =
      some ⟨src.contents, src.mode⟩ ∧
    (legacyCopyFile false fs sourcePath destPath).2 = none ∧
    statF (legacyCopyFile false fs sourcePath destPath).1 destPath =
      some ⟨src.contents, (createdDest fs destPath).mode⟩ := by
  refine ⟨?_, ?_⟩
  · unfold parallelCopyFile
    rw [h]
    cases hv : opts.verifyIntegrity with
    | false => simp [statF_writeF_self]
    | true =>
        by_cases hc : opts.checksumType = "sha256"
        · have hb : equalBytes (H src.contents) (H src.contents) = true :=
            (equalBytes_iff _ _).mpr rfl
          simp [copyWithVerification, hc, hb, statF_writeF_self]
        · simp [copyWithVerification, hc, statF_writeF_self]
  · unfold legacyCopyFile
    rw [h]
    simp [statF_writeF_self]

/-- Witness for `mode_bits_best_effort_legacy_only` on the concrete
filesystem `srcOnlyFS`. -/
theorem mode_bits_best_effort_legacy_only_witness :
    statF (legacyCopyFile true srcOnlyFS "a" "b").1 "b" = some ⟨[1, 2], 493⟩ ∧
    (legacyCopyFile false srcOnlyFS "a" "b").2 = none := by
  have h := mode_bits_best_effort_legacy_only (fun l => l) plainOpts srcOnlyFS
    "a" "b" ⟨[1, 2], 493⟩ rfl
  exact ⟨h.2.2.1, h.2.2.2.1⟩

/-! ## Worker-pool lemmas -/

@[simp] theorem sendError_completedTasks (s : EngineState) (e : CopyError) :
    (sendError s e).completedTasks = s.completedTasks := rfl

@[simp] theorem sendError_copiedBytes (s : EngineState) (e : CopyError) :
    (sendError s e).copiedBytes = s.copiedBytes := rfl

@[simp] theorem sendError_totalTasks (s : EngineState) (e : CopyError) :
    (sendError s e).totalTasks = s.totalTasks := rfl

@[simp] theorem sendError_totalBytes (s : EngineState) (e : CopyError) :
    (sendError s e).totalBytes = s.totalBytes := rfl

@[simp] theorem sendError_progAttempts (s : EngineState) (e : CopyError) :
    (sendError s e).progAttempts = s.progAttempts := rfl

@[simp] theorem sendError_progQueue (s : EngineState) (e : CopyError) :
    (sendError s e).progQueue = s.progQueue := rfl

@[simp] theorem sendError_errAttempts (s : EngineState) (e : CopyError) :
    (sendError s e).errAttempts = s.errAttempts ++ [e] := rfl

@[simp] theorem sendError_errQueue (s : EngineState) (e : CopyError) :
    (sendError s e).errQueue = enqueue100 s.errQueue e := rfl

@[simp] theorem sendError_resultsQueue (s : EngineState) (e : CopyError) :
    (sendError s e).resultsQueue = s.resultsQueue := rfl

@[simp] theorem sendProgressUpdate_completedTasks (opts : ParallelCopyOptions)
    (s : EngineState) (u : ProgressUpdate) :
    (sendProgressUpdate opts s u).completedTasks = s.completedTasks := by
  unfold sendProgressUpdate
  split <;> rfl

@[simp] theorem sendProgressUpdate_copiedBytes (opts : ParallelCopyOptions)
    (s : EngineState) (u : ProgressUpdate) :
    (sendProgressUpdate opts s u).copiedBytes = s.copiedBytes := by
  unfold sendProgressUpdate
  split <;> rfl

@[simp] theorem sendProgressUpdate_totalTasks (opts : ParallelCopyOptions)
    (s : EngineState) (u : ProgressUpdate) :
    (sendProgressUpdate opts s u).totalTasks = s.totalTasks := by
  unfold sendProgressUpdate
  split <;> rfl

@[simp] theorem sendProgressUpdate_totalBytes (opts : ParallelCopyOptions)
    (s : EngineState) (u : ProgressUpdate) :
    (sendProgressUpdate opts s u).totalBytes = s.totalBytes := by
  unfold sendProgressUpdate
  split <;> rfl

@[simp] theorem sendProgressUpdate_errAttempts (opts : ParallelCopyOptions)
    (s : EngineState) (u : ProgressUpdate) :
    (sendProgressUpdate opts s u).errAttempts = s.errAttempts := by
  unfold sendProgressUpdate
  split <;> rfl

@[simp] theorem sendProgressUpdate_errQueue (opts : ParallelCopyOptions)
    (s : EngineState) (u : ProgressUpdate) :
    (sendProgressUpdate opts s u).errQueue = s.errQueue := by
  unfold sendProgressUpdate
  split <;> rfl

@[simp] theorem sendProgressUpdate_resultsQueue (opts : ParallelCopyOptions)
    (s : EngineState) (u : ProgressUpdate) :
    (sendProgressUpdate opts s u).resultsQueue = s.resultsQueue := by
  unfold sendProgressUpdate
  split <;> rfl

@[simp] theorem recordCompletion_completedTasks (opts : ParallelCopyOptions)
    (s : EngineState) (t : CopyTask) :
    (recordCompletion opts s t).completedTasks = s.completedTasks + 1 := by
  simp only [recordCompletion]
  split <;> simp

@[simp] theorem recordCompletion_copiedBytes (opts : ParallelCopyOptions)
    (s : EngineState) (t : CopyTask) :
    (recordCompletion opts s t).copiedBytes = s.copiedBytes + t.size := by
  simp only [recordCompletion]
  split <;> simp

@[simp] theorem recordCompletion_totalTasks (opts : ParallelCopyOptions)
    (s : EngineState) (t : CopyTask) :
    (recordCompletion opts s t).totalTasks = s.totalTasks := by
  simp only [recordCompletion]
  split <;> simp

@[simp] theorem recordCompletion_totalBytes (opts : ParallelCopyOptions)
    (s : EngineState) (t : CopyTask) :
    (recordCompletion opts s t).totalBytes = s.totalBytes := by
  simp only [recordCompletion]
  split <;> simp

@[simp] theorem recordCompletion_errAttempts (opts : ParallelCopyOptions)
    (s : EngineState) (t : CopyTask) :
    (recordCompletion opts s t).errAttempts = s.errAttempts := by
  simp only [recordCompletion]
  split <;> simp

@[simp] theorem recordCompletion_errQueue (opts : ParallelCopyOptions)
    (s : EngineState) (t : CopyTask) :
    (recordCompletion opts s t).errQueue = s.errQueue := by
  simp only [recordCompletion]
  split <;> simp

@[simp] theorem recordCompletion_resultsQueue (opts : ParallelCopyOptions)
    (s : EngineState) (t : CopyTask) :
    (recordCompletion opts s t).resultsQueue = s.resultsQueue := by
  simp only [recordCompletion]
  split <;> simp

theorem workerStep_counters (opts : ParallelCopyOptions)
    (io : CopyTask → Option String) (s : EngineState) (t : CopyTask) :
    s.completedTasks ≤ (workerStep opts io s t).1.completedTasks ∧
    (workerStep opts io s t).1.completedTasks ≤ s.completedTasks + 1 ∧
    s.copiedBytes ≤ (workerStep opts io s t).1.copiedBytes ∧
    (workerStep opts io s t).1.copiedBytes ≤ s.copiedBytes + t.size ∧
    (workerStep opts io s t).1.totalTasks = s.totalTasks ∧
    (workerStep opts io s t).1.totalBytes = s.totalBytes := by
  unfold workerStep
  cases io t with
  | none => simp
  | some e =>
      by_cases hco : opts.continueOnError = true
      · simp [hco]
      · simp [hco]

theorem engineFold_append (opts : ParallelCopyOptions)
    (io : CopyTask → Option String) (l₁ l₂ : List CopyTask) (s : EngineState) :
    engineFold opts io s (l₁ ++ l₂) = engineFold opts io (engineFold opts io s l₁) l₂ := by
  induction l₁ generalizing s with
  | nil => rfl
  | cons t rest ih => simp [engineFold, ih]

theorem engineFold_counters_le (opts : ParallelCopyOptions)
    (io : CopyTask → Option String) (l : List CopyTask) (s : EngineState) :
    s.completedTasks ≤ (engineFold opts io s l).completedTasks ∧
    (engineFold opts io s l).completedTasks ≤ s.completedTasks + l.length ∧
    s.copiedBytes ≤ (engineFold opts io s l).copiedBytes ∧
    (engineFold opts io s l).copiedBytes ≤
      s.copiedBytes + (l.map (fun t => t.size)).sum ∧
    (engineFold opts io s l).totalTasks = s.totalTasks ∧
    (engineFold opts io s l).totalBytes = s.totalBytes := by
  induction l generalizing s with
  | nil => simp [engineFold]
  | cons t rest ih =>
      have hstep := workerStep_counters opts io s t
      have hrest := ih (workerStep opts io s t).1
      simp only [engineFold]
      refine ⟨le_trans hstep.1 hrest.1, ?_, le_trans hstep.2.2.1 hrest.2.2.1, ?_,
        hrest.2.2.2.2.1.trans hstep.2.2.2.2.1,
        hrest.2.2.2.2.2.trans hstep.2.2.2.2.2⟩
      · calc (engineFold opts io (workerStep opts io s t).1 rest).completedTasks
            ≤ (workerStep opts io s t).1.completedTasks + rest.length := hrest.2.1
          _ ≤ (s.completedTasks + 1) + rest.length :=
              Nat.add_le_add_right hstep.2.1 _
          _ = s.completedTasks + (t :: rest).length := by
              simp [List.length_cons]
              omega
      · calc (engineFold opts io (workerStep opts io s t).1 rest).copiedBytes
            ≤ (workerStep opts io s t).1.copiedBytes +
                (rest.map (fun t => t.size)).sum := hrest.2.2.2.1
          _ ≤ (s.copiedBytes + t.size) + (rest.map (fun t => t.size)).sum :=
              Nat.add_le_add_right hstep.2.2.2.1 _
          _ = s.copiedBytes + ((t :: rest).map (fun t => t.size)).sum := by
              simp
              omega

theorem sum_sizes_le_of_sublist {l₁ l₂ : List CopyTask} (h : l₁ <+ l₂) :
    (l₁.map (fun t => t.size)).sum ≤ (l₂.map (fun t => t.size)).sum := by
  induction h with
  | slnil => exact le_refl 0
  | cons a _ ih =>
      simp only [List.map_cons, List.sum_cons]
      exact le_trans ih (Nat.le_add_left _ _)
  | cons₂ a _ ih =>
      simp only [List.map_cons, List.sum_cons]
      exact Nat.add_le_add_left ih _

theorem sum_sizes_le_of_subperm {l₁ l₂ : List CopyTask} (h : l₁ <+~ l₂) :
    (l₁.map (fun t => t.size)).sum ≤ (l₂.map (fun t => t.size)).sum := by
  obtain ⟨l, hp, hs⟩ := h
  calc (l₁.map (fun t => t.size)).sum
      = (l.map (fun t => t.size)).sum := ((hp.map (fun t => t.size)).sum_eq).symm
    _ ≤ (l₂.map (fun t => t.size)).sum := sum_sizes_le_of_sublist hs

/-! ## Claim C5 — RunState counter invariants -/

/-- Claim C5: throughout a run, for any global processing trace `procs`
(each queued task is consumed at most once, so `procs` is a
sub-permutation of the discovered list) and any earlier point `procs'` of
that trace, `completedTasks` is monotonically non-decreasing, never exceeds
`totalTasks`, and `copiedBytes` never exceeds `totalBytes`, where the
totals are fixed at discovery as the task count and the summed task
sizes. -/
theorem runstate_counters_invariant (opts : ParallelCopyOptions)
    (io : CopyTask → Option String) (discErrs : List CopyError)
    (tasks procs procs' : List CopyTask)
    (hsub : procs <+~ tasks) (hpre : procs' <+: procs) :
    (engineFold opts io (initState discErrs tasks) procs').completedTasks ≤
      (engineFold opts io (initState discErrs tasks) procs).completedTasks ∧
    (engineFold opts io (initState discErrs tasks) procs).completedTasks ≤
      (engineFold opts io (initState discErrs tasks) procs).totalTasks ∧
    (engineFold opts io (initState discErrs tasks) procs).copiedBytes ≤
      (engineFold opts io (initState discErrs tasks) procs).totalBytes := by
  have hinit : (initState discErrs tasks).completedTasks = 0 ∧
      (initState discErrs tasks).copiedBytes = 0 ∧
      (initState discErrs tasks).totalTasks = tasks.length ∧
      (initState discErrs tasks).totalBytes = (tasks.map (fun t => t.size)).sum := by
    simp [initState]
  have hfold := engineFold_counters_le opts io procs (initState discErrs tasks)
  refine ⟨?_, ?_, ?_⟩
  · obtain ⟨r, hr⟩ := hpre
    rw [← hr, engineFold_append]
    exact (engineFold_counters_le opts io r _).1
  · calc (engineFold opts io (initState discErrs tasks) procs).completedTasks
        ≤ (initState discErrs tasks).completedTasks + procs.length := hfold.2.1
      _ = procs.length := by rw [hinit.1]; omega
      _ ≤ tasks.length := hsub.length_le
      _ = (engineFold opts io (initState discErrs tasks) procs).totalTasks := by
          rw [hfold.2.2.2.2.1, hinit.2.2.1]
  · calc (engineFold opts io (initState discErrs tasks) procs).copiedBytes
        ≤ (initState discErrs tasks).copiedBytes +
            (procs.map (fun t => t.size)).sum := hfold.2.2.2.1
      _ = (procs.map (fun t => t.size)).sum := by rw [hinit.2.1]; omega
      _ ≤ (tasks.map (fun t => t.size)).sum := sum_sizes_le_of_subperm hsub
      _ = (engineFold opts io (initState discErrs tasks) procs).totalBytes := by
          rw [hfold.2.2.2.2.2, hinit.2.2.2]

/-- Witness for `runstate_counters_invariant`: the full trace over two
tasks with a one-task prior point. -/
theorem runstate_counters_invariant_witness :
    (engineFold plainOpts ioOk (initState [] tasksTwo) [⟨"a", "b", false, 2⟩]).completedTasks ≤
      (engineFold plainOpts ioOk (initState [] tasksTwo) tasksTwo).completedTasks ∧
    (engineFold plainOpts ioOk (initState [] tasksTwo) tasksTwo).completedTasks ≤
      (engineFold plainOpts ioOk (initState [] tasksTwo) tasksTwo).totalTasks ∧
    (engineFold plainOpts ioOk (initState [] tasksTwo) tasksTwo).copiedBytes ≤
      (engineFold plainOpts ioOk (initState [] tasksTwo) tasksTwo).totalBytes := by
  exact runstate_counters_invariant plainOpts ioOk [] tasksTwo tasksTwo
    [⟨"a", "b", false, 2⟩] (List.Subperm.refl tasksTwo) ⟨[⟨"c", "d", false, 3⟩], rfl⟩

/-! ## Claim C10 — failed tasks are counted -/

/-- Claim C10, counterexample: with `continueOnError` disabled, a failing
task is processed (its error is produced) but the worker returns before the
counter update, so `completedTasks` and `copiedBytes` stay 0 — the claim
"increments after every task it processes, including tasks that failed"
fails in this configuration. -/
theorem failed_task_not_counted_on_stop :
    (engineFold optsNoCont ioBoom (initState [] [taskSX]) [taskSX]).completedTasks = 0 ∧
    (engineFold optsNoCont ioBoom (initState [] [taskSX]) [taskSX]).copiedBytes = 0 ∧
    ((engineFold optsNoCont ioBoom (initState [] [taskSX]) [taskSX]).errAttempts).length = 1 := by
  decide

theorem engineFold_counts_exact (opts : ParallelCopyOptions)
    (io : CopyTask → Option String) (hco : opts.continueOnError = true)
    (l : List CopyTask) : ∀ s : EngineState,
    (engineFold opts io s l).completedTasks = s.completedTasks + l.length ∧
    (engineFold opts io s l).copiedBytes =
      s.copiedBytes + (l.map (fun t => t.size)).sum := by
  induction l with
  | nil => intro s; simp [engineFold]
  | cons t rest ih =>
      intro s
      have hstep : (workerStep opts io s t).1.completedTasks = s.completedTasks + 1 ∧
          (workerStep opts io s t).1.copiedBytes = s.copiedBytes + t.size := by
        unfold workerStep
        cases io t with
        | none => simp
        | some e => simp [hco]
      have hrest := ih (workerStep opts io s t).1
      simp only [engineFold]
      constructor
      · rw [hrest.1, hstep.1]
        simp [List.length_cons]
        omega
      · rw [hrest.2, hstep.2]
        simp
        omega

/-- Claim C10 (amended): when `continueOnError` is enabled, a worker
increments `completedTasks` and adds the task's full declared byte size to
`copiedBytes` after every task it processes — including failed tasks, whose
counts and bytes therefore enter the progress totals as if they had been
copied (the conclusion holds for every I/O oracle, failures included);
when `continueOnError` is disabled, a failing task stops its worker before
the counters are updated and is not counted. -/
theorem counters_count_failed_tasks (opts : ParallelCopyOptions)
    (io : CopyTask → Option String) (discErrs : List CopyError)
    (tasks procs : List CopyTask) (hco : opts.continueOnError = true) :
    (engineFold opts io (initState discErrs tasks) procs).completedTasks =
      procs.length ∧
    (engineFold opts io (initState discErrs tasks) procs).copiedBytes =
      (procs.map (fun t => t.size)).sum := by
  have h := engineFold_counts_exact opts io hco procs (initState discErrs tasks)
  simpa [initState] using h

/-- Witness for `counters_count_failed_tasks`: a failing task still counts
its full 3-byte size. -/
theorem counters_count_failed_tasks_witness :
    (engineFold plainOpts ioBoom (initState [] [taskSX]) [taskSX]).completedTasks = 1 ∧
    (engineFold plainOpts ioBoom (initState [] [taskSX]) [taskSX]).copiedBytes = 3 := by
  have h := counters_count_failed_tasks plainOpts ioBoom [] [taskSX] [taskSX] rfl
  simpa [taskSX] using h

/-! ## Shape lemmas for the worker step -/

theorem workerStep_state_cases (opts : ParallelCopyOptions)
    (io : CopyTask → Option String) (s : EngineState) (t : CopyTask) :
    (io t = none ∧ (workerStep opts io s t).1 = recordCompletion opts s t) ∨
    (∃ e, io t = some e ∧ opts.continueOnError = true ∧
      (workerStep opts io s t).1 =
        recordCompletion opts (sendError s (mkTaskError t e)) t) ∨
    (∃ e, io t = some e ∧ opts.continueOnError = false ∧
      (workerStep opts io s t).1 =
        { sendError s (mkTaskError t e) with
            resultsQueue := (sendError s (mkTaskError t e)).resultsQueue ++ [e] }) := by
  unfold workerStep
  cases hio : io t with
  | none => exact Or.inl ⟨rfl, rfl⟩
  | some e =>
      cases hco : opts.continueOnError with
      | true => exact Or.inr (Or.inl ⟨e, rfl, rfl, rfl⟩)
      | false => exact Or.inr (Or.inr ⟨e, rfl, rfl, rfl⟩)

theorem enqueue100_sublist {q a : List CopyError} {e : CopyError}
    (h : q <+ a) : enqueue100 q e <+ a ++ [e] := by
  unfold enqueue100
  split
  · exact h.append (List.Sublist.refl [e])
  · exact h.trans (List.sublist_append_left a [e])

theorem filter_range'_split (c F : Nat) (h : c + 1 ≤ F) :
    (List.range' (c + 1) (F - c)).filter (fun k => k % 10 == 0) =
      (if (c + 1) % 10 == 0 then [c + 1] else []) ++
        (List.range' (c + 2) (F - (c + 1))).filter (fun k => k % 10 == 0) := by
  have hFc : F - c = (F - (c + 1)) + 1 := by omega
  rw [hFc, List.range'_succ, List.filter_cons]
  by_cases hc : ((c + 1) % 10 == 0) = true
  · simp only [hc, if_true]
    rfl
  · simp only [hc, if_false]
    rfl

/-! ## Claim C9 — sampling every 10th completion -/

theorem recordCompletion_sample_currents (opts : ParallelCopyOptions)
    (s : EngineState) (t : CopyTask) (hsp : opts.showProgress = true) :
    ((recordCompletion opts s t).progAttempts).map (fun u => u.current) =
      (s.progAttempts).map (fun u => u.current) ++
        (if (s.completedTasks + 1) % 10 == 0 then [s.completedTasks + 1] else []) := by
  simp only [recordCompletion, sendProgressUpdate, hsp, Bool.true_and]
  by_cases hc : ((s.completedTasks + 1) % 10 == 0) = true
  · simp [hc, progressSample]
  · simp [hc]

theorem engineFold_sample_currents (opts : ParallelCopyOptions)
    (io : CopyTask → Option String) (hsp : opts.showProgress = true)
    (l : List CopyTask) : ∀ s : EngineState,
    ((engineFold opts io s l).progAttempts).map (fun u => u.current) =
      (s.progAttempts).map (fun u => u.current) ++
        ((List.range' (s.completedTasks + 1)
          ((engineFold opts io s l).completedTasks - s.completedTasks)).filter
          (fun k => k % 10 == 0)) := by
  induction l with
  | nil => intro s; simp [engineFold]
  | cons t rest ih =>
      intro s
      have hcount : ∀ s' : EngineState,
          s'.progAttempts = s.progAttempts →
          s'.completedTasks = s.completedTasks →
          ((engineFold opts io (recordCompletion opts s' t) rest).progAttempts).map
              (fun u => u.current) =
            (s.progAttempts).map (fun u => u.current) ++
              ((List.range' (s.completedTasks + 1)
                ((engineFold opts io (recordCompletion opts s' t) rest).completedTasks -
                  s.completedTasks)).filter (fun k => k % 10 == 0)) := by
        intro s' hprog hcomp
        have hF : s.completedTasks + 1 ≤
            (engineFold opts io (recordCompletion opts s' t) rest).completedTasks := by
          have h1 := (engineFold_counters_le opts io rest (recordCompletion opts s' t)).1
          rw [recordCompletion_completedTasks, hcomp] at h1
          exact h1
        rw [ih (recordCompletion opts s' t),
          recordCompletion_sample_currents opts s' t hsp, hprog, hcomp,
          recordCompletion_completedTasks, hcomp, List.append_assoc]
        congr 1
        have hsplit := filter_range'_split s.completedTasks
          ((engineFold opts io (recordCompletion opts s' t) rest).completedTasks) hF
        rw [hsplit]
      rcases workerStep_state_cases opts io s t with ⟨hio, hst⟩ | h2 | h3
      · simp only [engineFold]
        rw [hst]
        exact hcount s rfl rfl
      · obtain ⟨e, hio, hco, hst⟩ := h2
        simp only [engineFold]
        rw [hst]
        exact hcount (sendError s (mkTaskError t e)) rfl rfl
      · obtain ⟨e, hio, hco, hst⟩ := h3
        simp only [engineFold]
        rw [hst]
        exact ih _

/-- Claim C9: with progress reporting enabled, the sequence of `current`
values of the intermediate samples attempted during worker processing is
exactly the multiples of 10 among the counter values 1..completed — a
sample is emitted precisely when the shared completed-task counter is a
multiple of 10, for *every* options record (the interval 10 is a fixed
constant, not configurable). -/
theorem progress_sample_every_tenth (opts : ParallelCopyOptions)
    (io : CopyTask → Option String) (discErrs : List CopyError)
    (tasks procs : List CopyTask) (hsp : opts.showProgress = true) :
    ((engineFold opts io (initState discErrs tasks) procs).progAttempts).map
        (fun u => u.current) =
      (List.range' 1
        ((engineFold opts io (initState discErrs tasks) procs).completedTasks)).filter
        (fun k => k % 10 == 0) := by
  have h := engineFold_sample_currents opts io hsp procs (initState discErrs tasks)
  simpa [initState] using h

/-- Witness for `progress_sample_every_tenth`: over 12 successful tasks,
exactly one sample is attempted, at counter value 10. -/
theorem progress_sample_every_tenth_witness :
    ((engineFold optsShow ioOk (initState [] twelveTasks) twelveTasks).progAttempts).map
        (fun u => u.current) = [10] := by
  have h := progress_sample_every_tenth optsShow ioOk [] twelveTasks twelveTasks rfl
  rw [h]
  decide

/-! ## Claim C8 — error production and delivery -/

theorem engineFold_errAttempts (opts : ParallelCopyOptions)
    (io : CopyTask → Option String) (l : List CopyTask) : ∀ s : EngineState,
    (engineFold opts io s l).errAttempts =
      s.errAttempts ++ l.filterMap (fun t => (io t).map (fun e => mkTaskError t e)) := by
  induction l with
  | nil => intro s; simp [engineFold]
  | cons t rest ih =>
      intro s
      simp only [engineFold]
      rcases workerStep_state_cases opts io s t with ⟨hio, hst⟩ | h2 | h3
      · rw [hst, ih]
        simp [hio]
      · obtain ⟨e, hio, hco, hst⟩ := h2
        rw [hst, ih]
        simp [hio]
      · obtain ⟨e, hio, hco, hst⟩ := h3
        rw [hst, ih]
        simp [hio]

theorem engineFold_errQueue_sublist (opts : ParallelCopyOptions)
    (io : CopyTask → Option String) (l : List CopyTask) : ∀ s : EngineState,
    s.errQueue <+ s.errAttempts →
    (engineFold opts io s l).errQueue <+ (engineFold opts io s l).errAttempts := by
  induction l with
  | nil => intro s h; simpa [engineFold] using h
  | cons t rest ih =>
      intro s h
      simp only [engineFold]
      apply ih
      rcases workerStep_state_cases opts io s t with ⟨hio, hst⟩ | h2 | h3
      · rw [hst]
        simpa using h
      · obtain ⟨e, hio, hco, hst⟩ := h2
        rw [hst]
        simpa using enqueue100_sublist h
      · obtain ⟨e, hio, hco, hst⟩ := h3
        rw [hst]
        simpa using enqueue100_sublist h

set_option maxRecDepth 8000 in
/-- Claim C8, counterexample: in the schedule where the single error
consumer has not yet run, 101 failing tasks produce 101 `CopyError`s but
the bounded (capacity-100) error channel accepts only 100 of them — the
101st failed task's error is dropped by the non-blocking send and lost,
refuting "no failed task's error is lost". -/
theorem error_stream_drops_when_full :
    ((engineFold plainOpts ioBoom (initState [] manyTasks) manyTasks).errAttempts).length = 101 ∧
    ((engineFold plainOpts ioBoom (initState [] manyTasks) manyTasks).errQueue).length = 100 := by
  decide

/-- Claim C8 (amended): for every failed copy task exactly one `CopyError`
(source path, destination path, cause) is produced by the worker, in
processing order — no failure produces two and no success produces any;
the errors actually enqueued on the bounded error stream form a sublist of
those produced, so each enqueued error is consumed exactly once by the
error collector and none is reported twice; but the non-blocking send
drops an error when the 100-slot buffer is full, so a failed task's error
can be lost. -/
theorem error_per_failed_task_once (opts : ParallelCopyOptions)
    (io : CopyTask → Option String) (tasks procs : List CopyTask) :
    (engineFold opts io (initState [] tasks) procs).errAttempts =
      procs.filterMap (fun t => (io t).map (fun e => mkTaskError t e)) ∧
    (engineFold opts io (initState [] tasks) procs).errQueue <+
      (engineFold opts io (initState [] tasks) procs).errAttempts := by
  constructor
  · have h := engineFold_errAttempts opts io procs (initState [] tasks)
    simpa [initState] using h
  · apply engineFold_errQueue_sublist
    simp [initState]

/-! ## Claim C3 — start first, complete last -/

theorem recordCompletion_prog_piece (opts : ParallelCopyOptions)
    (s : EngineState) (t : CopyTask) :
    ∃ piece : List ProgressUpdate,
      (recordCompletion opts s t).progAttempts = s.progAttempts ++ piece ∧
      ∀ u ∈ piece, u.type = ProgressType.progress := by
  simp only [recordCompletion, sendProgressUpdate]
  split
  · split
    · refine ⟨[progressSample _], rfl, ?_⟩
      intro u hu
      rw [List.mem_singleton] at hu
      subst hu
      rfl
    · exact ⟨[], by simp, by simp⟩
  · exact ⟨[], by simp, by simp⟩

theorem engineFold_prog_types (opts : ParallelCopyOptions)
    (io : CopyTask → Option String) (l : List CopyTask) : ∀ s : EngineState,
    ∃ news : List ProgressUpdate,
      (engineFold opts io s l).progAttempts = s.progAttempts ++ news ∧
      ∀ u ∈ news, u.type = ProgressType.progress := by
  induction l with
  | nil => intro s; exact ⟨[], by simp [engineFold], by simp⟩
  | cons t rest ih =>
      intro s
      have hstep : ∃ piece : List ProgressUpdate,
          (workerStep opts io s t).1.progAttempts = s.progAttempts ++ piece ∧
          ∀ u ∈ piece, u.type = ProgressType.progress := by
        rcases workerStep_state_cases opts io s t with ⟨hio, hst⟩ | h2 | h3
        · rw [hst]
          exact recordCompletion_prog_piece opts s t
        · obtain ⟨e, hio, hco, hst⟩ := h2
          rw [hst]
          obtain ⟨piece, hp, hpt⟩ :=
            recordCompletion_prog_piece opts (sendError s (mkTaskError t e)) t
          exact ⟨piece, by simpa using hp, hpt⟩
        · obtain ⟨e, hio, hco, hst⟩ := h3
          rw [hst]
          exact ⟨[], by simp, by simp⟩
      obtain ⟨piece, hp, hpt⟩ := hstep
      obtain ⟨news, hn, hnt⟩ := ih (workerStep opts io s t).1
      refine ⟨piece ++ news, ?_, ?_⟩
      · simp only [engineFold]
        rw [hn, hp, List.append_assoc]
      · intro u hu
        rcases List.mem_append.mp hu with h | h
        · exact hpt u h
        · exact hnt u h

theorem recordCompletion_prog_shape (opts : ParallelCopyOptions)
    (s : EngineState) (t : CopyTask) :
    ∃ piece : List ProgressUpdate,
      (recordCompletion opts s t).progAttempts = s.progAttempts ++ piece ∧
      (recordCompletion opts s t).progQueue = piece.foldl enqueue100 s.progQueue ∧
      ∀ u ∈ piece, u.type = ProgressType.progress := by
  simp only [recordCompletion, sendProgressUpdate]
  split
  · split
    · refine ⟨[progressSample _], rfl, rfl, ?_⟩
      intro u hu
      rw [List.mem_singleton] at hu
      subst hu
      rfl
    · exact ⟨[], by simp, by simp, by simp⟩
  · exact ⟨[], by simp, by simp, by simp⟩

theorem engineFold_prog_shape (opts : ParallelCopyOptions)
    (io : CopyTask → Option String) (l : List CopyTask) : ∀ s : EngineState,
    ∃ news : List ProgressUpdate,
      (engineFold opts io s l).progAttempts = s.progAttempts ++ news ∧
      (engineFold opts io s l).progQueue = news.foldl enqueue100 s.progQueue ∧
      ∀ u ∈ news, u.type = ProgressType.progress := by
  induction l with
  | nil =>
      intro s
      exact ⟨[], by simp [engineFold], by simp [engineFold], by simp⟩
  | cons t rest ih =>
      intro s
      have hstep : ∃ piece : List ProgressUpdate,
          (workerStep opts io s t).1.progAttempts = s.progAttempts ++ piece ∧
          (workerStep opts io s t).1.progQueue = piece.foldl enqueue100 s.progQueue ∧
          ∀ u ∈ piece, u.type = ProgressType.progress := by
        rcases workerStep_state_cases opts io s t with ⟨hio, hst⟩ | h2 | h3
        · rw [hst]
          exact recordCompletion_prog_shape opts s t
        · obtain ⟨e, hio, hco, hst⟩ := h2
          rw [hst]
          obtain ⟨piece, h1, h2q, h3t⟩ :=
            recordCompletion_prog_shape opts (sendError s (mkTaskError t e)) t
          exact ⟨piece, by simpa using h1, by simpa using h2q, h3t⟩
        · obtain ⟨e, hio, hco, hst⟩ := h3
          rw [hst]
          exact ⟨[], by simp, by simp, by simp⟩
      obtain ⟨piece, hp, hpq, hpt⟩ := hstep
      obtain ⟨news, hn, hnq, hnt⟩ := ih (workerStep opts io s t).1
      refine ⟨piece ++ news, ?_, ?_, ?_⟩
      · simp only [engineFold]
        rw [hn, hp, List.append_assoc]
      · simp only [engineFold]
        rw [hnq, hpq, List.foldl_append]
      · intro u hu
        rcases List.mem_append.mp hu with h | h
        · exact hpt u h
        · exact hnt u h

theorem foldl_enqueue100_of_le {α : Type} (news : List α) : ∀ q : List α,
    q.length + news.length ≤ 100 → news.foldl enqueue100 q = q ++ news := by
  induction news with
  | nil => intro q h; simp
  | cons a rest ih =>
      intro q h
      rw [List.length_cons] at h
      have hq : q.length < 100 := by omega
      simp only [List.foldl_cons]
      rw [show enqueue100 q a = q ++ [a] from by simp [enqueue100, hq]]
      have hlen : (q ++ [a]).length + rest.length ≤ 100 := by
        rw [List.length_append, List.length_cons, List.length_nil]
        omega
      rw [ih (q ++ [a]) hlen]
      simp

theorem enqueue100_head {α : Type} (q : List α) (u x : α) (h : q.head? = some x) :
    (enqueue100 q u).head? = some x := by
  unfold enqueue100
  split
  · rw [List.head?_append, h]
    rfl
  · exact h

theorem foldl_enqueue100_head {α : Type} (news : List α) : ∀ (q : List α) (x : α),
    q.head? = some x → (news.foldl enqueue100 q).head? = some x := by
  induction news with
  | nil => intro q x h; exact h
  | cons a rest ih => intro q x h; exact ih _ _ (enqueue100_head q a x h)

theorem discoverTasks_replicate (fs : DiscFS) (co : Bool)
    (sourceDir destDir : String) (item : AutoCopyItem) (t : CopyTask)
    (h : discoverItemTasks fs co sourceDir destDir item = .ok [t]) :
    ∀ n : Nat, discoverTasks fs co sourceDir destDir (List.replicate n item) =
      (.ok (List.replicate n t), []) := by
  intro n
  induction n with
  | zero => rfl
  | succ n ih =>
      rw [List.replicate_succ]
      simp only [discoverTasks, h, ih]
      simp [List.replicate_succ]

theorem enqueue100_full {α : Type} (q : List α) (u : α) (h : q.length = 100) :
    enqueue100 q u = q := by
  unfold enqueue100
  rw [if_neg]
  rw [h]
  omega

theorem filter_complete_count (a c : ProgressUpdate) (mid : List ProgressUpdate)
    (ha : (a.type == ProgressType.complete) = false)
    (hmid : mid.filter (fun u => u.type == ProgressType.complete) = [])
    (hc : (c.type == ProgressType.complete) = true) :
    ((([a] ++ mid) ++ [c]).filter
      (fun u => u.type == ProgressType.complete)).length = 1 := by
  simp [List.filter_append, ha, hmid, hc]

theorem filter_complete_none (a : ProgressUpdate) (mid : List ProgressUpdate)
    (ha : (a.type == ProgressType.complete) = false)
    (hmid : mid.filter (fun u => u.type == ProgressType.complete) = []) :
    (([a] ++ mid).filter (fun u => u.type == ProgressType.complete)).length = 0 := by
  simp [ha, hmid]

set_option maxRecDepth 100000 in
/-- Claim C3, counterexample: two concrete runs refute the claim as
stated.  (i) A run that discovers zero tasks returns before the `start`
update is ever sent, so with progress reporting enabled neither `start`
nor `complete` is emitted or enqueued.  (ii) In a 990-task run (990 items
for the same existing file), the `start` update plus the 99 intermediate
samples fill the 100-slot progress buffer before the end, so the
non-blocking send of the `complete` update finds it full and drops it:
`complete` is emitted exactly once but never enqueued, hence never
delivered to the progress consumer. -/
theorem start_complete_not_always_delivered :
    (runEngine optsShow emptyDiscFS "s" "d" [] ioOk []).2.progAttempts = [] ∧
    (runEngine optsShow emptyDiscFS "s" "d" [] ioOk []).2.progQueue = [] ∧
    ((runEngine optsShow fileAtSXFS "s" "d" (List.replicate 990 itemPlainX) ioOk
        (List.replicate 990 taskSX)).2.progAttempts.filter
      (fun u => u.type == ProgressType.complete)).length = 1 ∧
    ((runEngine optsShow fileAtSXFS "s" "d" (List.replicate 990 itemPlainX) ioOk
        (List.replicate 990 taskSX)).2.progQueue.filter
      (fun u => u.type == ProgressType.complete)).length = 0 := by
  have hsp : optsShow.showProgress = true := rfl
  have hitem : discoverItemTasks fileAtSXFS optsShow.continueOnError "s" "d"
      itemPlainX = .ok [taskSX] := rfl
  have hdisc := discoverTasks_replicate fileAtSXFS optsShow.continueOnError
    "s" "d" itemPlainX taskSX hitem 990
  have hne0 : ¬ (List.replicate 990 taskSX).length = 0 := by simp
  have hrun : runEngine optsShow fileAtSXFS "s" "d" (List.replicate 990 itemPlainX)
      ioOk (List.replicate 990 taskSX) =
      (none, runBody optsShow ioOk [] (List.replicate 990 taskSX)
        (List.replicate 990 taskSX)) := by
    simp only [runEngine, hdisc]
    rw [if_neg hne0]
  have hout : ∀ (s : EngineState) (u : ProgressUpdate),
      (sendProgressUpdate optsShow s u).progAttempts = s.progAttempts ++ [u] := by
    intro s u
    simp [sendProgressUpdate, hsp]
  have houtq : ∀ (s : EngineState) (u : ProgressUpdate),
      (sendProgressUpdate optsShow s u).progQueue = enqueue100 s.progQueue u := by
    intro s u
    simp [sendProgressUpdate, hsp]
  have hs1att : (sendProgressUpdate optsShow (initState [] (List.replicate 990 taskSX))
      (startUpdate (List.replicate 990 taskSX).length)).progAttempts =
      [startUpdate (List.replicate 990 taskSX).length] := by
    rw [hout]
    simp [initState]
  have hs1q : (sendProgressUpdate optsShow (initState [] (List.replicate 990 taskSX))
      (startUpdate (List.replicate 990 taskSX).length)).progQueue =
      [startUpdate (List.replicate 990 taskSX).length] := by
    rw [houtq]
    simp [initState, enqueue100]
  have hs1c : (sendProgressUpdate optsShow (initState [] (List.replicate 990 taskSX))
      (startUpdate (List.replicate 990 taskSX).length)).completedTasks = 0 := by
    simp [initState]
  obtain ⟨news, hatt, hq, htyp⟩ := engineFold_prog_shape optsShow ioOk
    (List.replicate 990 taskSX)
    (sendProgressUpdate optsShow (initState [] (List.replicate 990 taskSX))
      (startUpdate (List.replicate 990 taskSX).length))
  have hcomp : (engineFold optsShow ioOk
      (sendProgressUpdate optsShow (initState [] (List.replicate 990 taskSX))
        (startUpdate (List.replicate 990 taskSX).length))
      (List.replicate 990 taskSX)).completedTasks = 990 := by
    have h := (engineFold_counts_exact optsShow ioOk rfl (List.replicate 990 taskSX)
      (sendProgressUpdate optsShow (initState [] (List.replicate 990 taskSX))
        (startUpdate (List.replicate 990 taskSX).length))).1
    rw [h, hs1c]
    simp
  have hfilter : ((List.range' 1 990).filter (fun k => k % 10 == 0)).length = 99 := by
    decide
  have hnews_len : news.length = 99 := by
    have hm := congrArg List.length (engineFold_sample_currents optsShow ioOk hsp
      (List.replicate 990 taskSX)
      (sendProgressUpdate optsShow (initState [] (List.replicate 990 taskSX))
        (startUpdate (List.replicate 990 taskSX).length)))
    rw [hcomp, hs1c, hs1att, hatt, hs1att] at hm
    simp only [List.length_map, List.length_append, List.length_cons,
      List.length_nil, Nat.sub_zero] at hm
    rw [hfilter] at hm
    omega
  have hqatt : (engineFold optsShow ioOk
      (sendProgressUpdate optsShow (initState [] (List.replicate 990 taskSX))
        (startUpdate (List.replicate 990 taskSX).length))
      (List.replicate 990 taskSX)).progQueue =
      [startUpdate (List.replicate 990 taskSX).length] ++ news := by
    rw [hq, hs1q, foldl_enqueue100_of_le news _ (by simp [hnews_len])]
  have hqlen : (engineFold optsShow ioOk
      (sendProgressUpdate optsShow (initState [] (List.replicate 990 taskSX))
        (startUpdate (List.replicate 990 taskSX).length))
      (List.replicate 990 taskSX)).progQueue.length = 100 := by
    rw [hqatt]
    simp [hnews_len]
  have hfin : runBody optsShow ioOk [] (List.replicate 990 taskSX)
      (List.replicate 990 taskSX) =
      sendProgressUpdate optsShow
        (engineFold optsShow ioOk
          (sendProgressUpdate optsShow (initState [] (List.replicate 990 taskSX))
            (startUpdate (List.replicate 990 taskSX).length))
          (List.replicate 990 taskSX))
        (completeUpdate (engineFold optsShow ioOk
          (sendProgressUpdate optsShow (initState [] (List.replicate 990 taskSX))
            (startUpdate (List.replicate 990 taskSX).length))
          (List.replicate 990 taskSX))) := by
    simp only [runBody, hsp]
    simp only [if_pos]
  have hstart_ne : ((startUpdate (List.replicate 990 taskSX).length).type ==
      ProgressType.complete) = false := rfl
  have hcomp_beq : ∀ s : EngineState,
      ((completeUpdate s).type == ProgressType.complete) = true := fun s => rfl
  have hnews_nil : news.filter (fun u => u.type == ProgressType.complete) = [] :=
    List.filter_eq_nil_iff.mpr (fun u hu => by simp [htyp u hu])
  refine ⟨rfl, rfl, ?_, ?_⟩
  · rw [hrun]
    simp only []
    rw [hfin, hout, hatt, hs1att]
    exact filter_complete_count _ _ news hstart_ne hnews_nil (hcomp_beq _)
  · rw [hrun]
    simp only []
    rw [hfin, houtq]
    rw [enqueue100_full _ _ hqlen]
    rw [hqatt]
    exact filter_complete_none _ news hstart_ne hnews_nil

theorem runBody_progAttempts (opts : ParallelCopyOptions)
    (io : CopyTask → Option String) (discErrs : List CopyError)
    (tasks procs : List CopyTask) (hsp : opts.showProgress = true) :
    ∃ news : List ProgressUpdate,
      (runBody opts io discErrs tasks procs).progAttempts =
        startUpdate tasks.length ::
          (news ++ [completeUpdate (engineFold opts io
            (sendProgressUpdate opts (initState discErrs tasks)
              (startUpdate tasks.length)) procs)]) ∧
      ∀ u ∈ news, u.type = ProgressType.progress := by
  obtain ⟨news, hn, hnt⟩ := engineFold_prog_types opts io procs
    (sendProgressUpdate opts (initState discErrs tasks) (startUpdate tasks.length))
  refine ⟨news, ?_, hnt⟩
  have hout : ∀ (s : EngineState) (u : ProgressUpdate),
      (sendProgressUpdate opts s u).progAttempts = s.progAttempts ++ [u] := by
    intro s u
    simp [sendProgressUpdate, hsp]
  have hs1 : (sendProgressUpdate opts (initState discErrs tasks)
      (startUpdate tasks.length)).progAttempts = [startUpdate tasks.length] := by
    rw [hout]
    simp [initState]
  simp only [runBody, hsp]
  simp only [if_pos]
  rw [hout, hn, hs1]
  simp

/-- Claim C3 (amended): for every engine run with progress reporting
enabled that discovers at least one task, exactly one `start` update is
emitted on the progress stream and it is the first — and its non-blocking
enqueue onto the fresh 100-slot buffer always succeeds, so `start` is
always delivered to the consumer, at the head of the stream; exactly one
`complete` update is emitted and it is the last, built from the counter
state reached after the workers' whole processing trace, but its delivery
is best-effort like the intermediate `progress` samples (a non-blocking
send on the same buffer).  A zero-task run emits nothing. -/
theorem run_progress_start_first_complete_last (opts : ParallelCopyOptions)
    (fs : DiscFS) (sourceDir destDir : String) (items : List AutoCopyItem)
    (io : CopyTask → Option String) (procs : List CopyTask)
    (tasks : List CopyTask) (discErrs : List CopyError)
    (hsp : opts.showProgress = true)
    (hdisc : discoverTasks fs opts.continueOnError sourceDir destDir items =
      (.ok tasks, discErrs))
    (hne : tasks ≠ []) :
    (runEngine opts fs sourceDir destDir items io procs).2.progAttempts.head? =
      some (startUpdate tasks.length) ∧
    ((runEngine opts fs sourceDir destDir items io procs).2.progAttempts.filter
      (fun u => u.type == ProgressType.start)).length = 1 ∧
    (∃ u, (runEngine opts fs sourceDir destDir items io procs).2.progAttempts.getLast? =
        some u ∧ u.type = ProgressType.complete ∧
      u.current = (engineFold opts io
        (sendProgressUpdate opts (initState discErrs tasks) (startUpdate tasks.length))
        procs).completedTasks) ∧
    ((runEngine opts fs sourceDir destDir items io procs).2.progAttempts.filter
      (fun u => u.type == ProgressType.complete)).length = 1 ∧
    (runEngine opts fs sourceDir destDir items io procs).2.progQueue.head? =
      some (startUpdate tasks.length) := by
  have hne0 : ¬ tasks.length = 0 := fun h => hne (List.length_eq_zero.mp h)
  have hrun : runEngine opts fs sourceDir destDir items io procs =
      (none, runBody opts io discErrs tasks procs) := by
    simp only [runEngine, hdisc]
    rw [if_neg hne0]
  obtain ⟨news, hb, hnt⟩ := runBody_progAttempts opts io discErrs tasks procs hsp
  have hqhead : (runBody opts io discErrs tasks procs).progQueue.head? =
      some (startUpdate tasks.length) := by
    have hs1q : (sendProgressUpdate opts (initState discErrs tasks)
        (startUpdate tasks.length)).progQueue = [startUpdate tasks.length] := by
      simp [sendProgressUpdate, hsp, initState, enqueue100]
    obtain ⟨mids, _, hq2, _⟩ := engineFold_prog_shape opts io procs
      (sendProgressUpdate opts (initState discErrs tasks) (startUpdate tasks.length))
    have hq3 : (engineFold opts io
        (sendProgressUpdate opts (initState discErrs tasks) (startUpdate tasks.length))
        procs).progQueue.head? = some (startUpdate tasks.length) := by
      rw [hq2, hs1q]
      exact foldl_enqueue100_head mids _ _ rfl
    simp only [runBody, hsp]
    simp only [if_pos]
    have houtq : ∀ (s : EngineState) (u : ProgressUpdate),
        (sendProgressUpdate opts s u).progQueue = enqueue100 s.progQueue u := by
      intro s u
      simp [sendProgressUpdate, hsp]
    rw [houtq]
    exact enqueue100_head _ _ _ hq3
  rw [hrun]
  simp only []
  rw [hb]
  have hnews_start : news.filter (fun u => u.type == ProgressType.start) = [] :=
    List.filter_eq_nil_iff.mpr (fun u hu => by simp [hnt u hu])
  have hnews_complete : news.filter (fun u => u.type == ProgressType.complete) = [] :=
    List.filter_eq_nil_iff.mpr (fun u hu => by simp [hnt u hu])
  refine ⟨rfl, ?_, ⟨completeUpdate _, ?_, rfl, rfl⟩, ?_, hqhead⟩
  · simp [List.filter_cons, List.filter_append, hnews_start, startUpdate, completeUpdate]
  · rw [← List.cons_append, List.getLast?_concat]
  · simp [List.filter_cons, List.filter_append, hnews_complete, startUpdate, completeUpdate]

/-- Witness for `run_progress_start_first_complete_last`: a one-item,
one-task run with progress reporting on. -/
theorem run_progress_start_first_complete_last_witness :
    (runEngine optsShow fileAtSXFS "s" "d" [itemPlainX] ioOk [taskSX]).2.progAttempts.head? =
      some (startUpdate 1) ∧
    ((runEngine optsShow fileAtSXFS "s" "d" [itemPlainX] ioOk [taskSX]).2.progAttempts.filter
      (fun u => u.type == ProgressType.complete)).length = 1 ∧
    (runEngine optsShow fileAtSXFS "s" "d" [itemPlainX] ioOk [taskSX]).2.progQueue.head? =
      some (startUpdate 1) := by
  have h := run_progress_start_first_complete_last optsShow fileAtSXFS "s" "d"
    [itemPlainX] ioOk [taskSX] [taskSX] [] rfl rfl (by decide)
  exact ⟨h.1, h.2.2.2.1, h.2.2.2.2⟩

/-! ## Claim C1 — terminal error with continue-on-error disabled -/

/-- Claim C1, exhibit of the code bug: with `continueOnError = false` and a
single discovered task whose copy fails, the worker does stop and does push
the error onto `pc.results` — but `Run` never reads that channel, so its
terminal error is nil, not the fatal task error. -/
theorem run_returns_nil_despite_fatal_error :
    (runEngine optsNoCont fileAtSXFS "s" "d" [itemPlainX] ioBoom [taskSX]).1 = none ∧
    (runEngine optsNoCont fileAtSXFS "s" "d" [itemPlainX] ioBoom [taskSX]).2.resultsQueue =
      ["copy failed"] ∧
    (workerStep optsNoCont ioBoom (initState [] [taskSX]) taskSX).2 = true := by
  exact ⟨rfl, rfl, rfl⟩

end Autocopy
